import Mathlib

/-!
Verification development for the namespace-editing and dependent-edit
propagation engine specified in spec.md.  The engine itself (the USD
`Usd.NamespaceEditor` / `Sdf` layer store / `Pcp` composition core) is not
part of the source set — only its Python test drivers are — so the data
model and operations below are modelled from the specification text
(spec.md sections 3 and 4), with the test files serving as concrete
oracles for the scenarios stated in the claims.
-/

set_option maxRecDepth 20000

namespace UsdModel

/-- A layer identifier (spec section 3, "Layer": identity is a unique
identifier). -/
abbrev LayerId := Nat

/-- Modelled from the spec: a Path is an immutable sequence of tokens
identifying a prim (spec section 3, "Path").  The pseudo-root is `[]`. -/
abbrev Path := List String

/-- A prim-or-property path: a prim path together with an optional
property name (spec section 3: "a property path's prefix is a valid prim
path"). -/
abbrev OPath := Path × Option String

/-- Modelled from the spec: `ReplacePrefix`-style rewriting used during
edits (spec section 4.1): the leading `old` segment of `p` is replaced by
`new`; a path that does not have `old` as a prefix is unaffected. -/
def movePath (old new p : Path) : Path :=
  if old.isPrefixOf p then new ++ p.drop old.length else p

/-- Order-preserving duplicate removal keeping first occurrences, with an
accumulator of names already seen. -/
def dedupAcc {α : Type} [DecidableEq α] (seen : List α) : List α → List α
  | [] => []
  | a :: l => if a ∈ seen then dedupAcc seen l else a :: dedupAcc (a :: seen) l

/-- Order-preserving duplicate removal keeping first occurrences. -/
def dedupFirst {α : Type} [DecidableEq α] (l : List α) : List α :=
  dedupAcc [] l

theorem mem_dedupAcc {α : Type} [DecidableEq α] (seen : List α) (l : List α)
    (a : α) : a ∈ dedupAcc seen l ↔ a ∈ l ∧ a ∉ seen := by
  induction l generalizing seen with
  | nil => simp [dedupAcc]
  | cons b l ih =>
    by_cases hb : b ∈ seen
    · simp only [dedupAcc, if_pos hb, ih, List.mem_cons]
      constructor
      · rintro ⟨h1, h2⟩; exact ⟨Or.inr h1, h2⟩
      · rintro ⟨h1 | h1, h2⟩
        · subst h1; exact absurd hb h2
        · exact ⟨h1, h2⟩
    · simp only [dedupAcc, if_neg hb, List.mem_cons, ih]
      by_cases hab : a = b
      · subst hab; tauto
      · tauto

theorem mem_dedupFirst {α : Type} [DecidableEq α] (l : List α) (a : α) :
    a ∈ dedupFirst l ↔ a ∈ l := by
  simp [dedupFirst, mem_dedupAcc]

/-- Modelled from the spec: a composition arc entry (spec section 3,
"CompositionArc"): the target layer identifier (`none` meaning
"internal", i.e. same-layer) and the target path (`none` meaning "use the
target layer's default prim"). -/
structure Arc where
  layer : Option LayerId
  primPath : Option Path
deriving DecidableEq, Repr

/-- Modelled from the spec: a property spec: a named attribute or
relationship; `targets` holds the connection paths (attributes) or target
paths (relationships) when authored (spec sections 3 and 4.5). -/
structure PropSpec where
  name : String
  isRel : Bool
  targets : Option (List OPath)
deriving DecidableEq, Repr

/-- A plain attribute property spec with no connections. -/
def atr (n : String) : PropSpec := ⟨n, false, none⟩

/-- Modelled from the spec: a prim spec (spec section 3, "Spec"): a node
in a layer's prim tree with a specifier (here: whether it is an "over"),
a type name, property specs and the composition fields `references` and
`payload` (each an optional authored list: `none` = field absent,
`some []` = field present but empty). -/
structure PrimSpec where
  isOver : Bool
  typeName : Option String
  props : List PropSpec
  references : Option (List Arc)
  payload : Option (List Arc)
deriving DecidableEq, Repr

/-- A "def"-specifier prim spec with the given attribute names. -/
def defSpec (attrs : List String) : PrimSpec :=
  ⟨false, none, attrs.map atr, none, none⟩

/-- An "over"-specifier prim spec with the given attribute names. -/
def overSpec (attrs : List String) : PrimSpec :=
  ⟨true, none, attrs.map atr, none, none⟩

/-- A "def" prim spec that also authors a references list. -/
def defSpecRefs (attrs : List String) (refs : List Arc) : PrimSpec :=
  ⟨false, none, attrs.map atr, some refs, none⟩

/-- A "def" prim spec that also authors a payload list. -/
def defSpecPayload (attrs : List String) (pay : List Arc) : PrimSpec :=
  ⟨false, none, attrs.map atr, none, some pay⟩

/-- Modelled from the spec: the authored default-prim field of a layer
(spec section 4.2): authored as just the prim name when the target is a
root prim, as an absolute path otherwise. -/
inductive DefaultPrim where
  | byName (n : String)
  | byPath (p : Path)
deriving DecidableEq, Repr

/-- The prim path a default-prim field resolves to. -/
def DefaultPrim.resolve : DefaultPrim → Path
  | .byName n => [n]
  | .byPath p => p

/-- The authored form for a default-prim target path: root prims are
authored by name, deeper prims by absolute path (spec section 4.2). -/
def authoredDefault (p : Path) : DefaultPrim :=
  match p with
  | [n] => .byName n
  | _ => .byPath p

/-- Modelled from the spec: a Layer (spec section 3): a tree of prim
specs (stored as a path-keyed association list in authored order),
layer-level default-prim metadata and the sublayer list. -/
structure Layer where
  specs : List (Path × PrimSpec)
  defaultPrim : Option DefaultPrim
  sublayers : List LayerId
deriving DecidableEq, Repr

/-- A layer with no metadata, only prim specs. -/
def mkLayer (specs : List (Path × PrimSpec)) : Layer := ⟨specs, none, []⟩

/-- Association-list lookup keyed by decidable equality. -/
def lookupBy {κ β : Type} [DecidableEq κ] (k : κ) : List (κ × β) → Option β
  | [] => none
  | (k0, v) :: es => if k = k0 then some v else lookupBy k es

/-- Modelled from the spec: the layer table (spec section 9, "Layer table
keyed by identifier"). -/
structure Store where
  layers : List (LayerId × Layer)
deriving DecidableEq, Repr

/-- Look a layer up by identifier. -/
def Store.layer (st : Store) (l : LayerId) : Option Layer :=
  lookupBy l st.layers

/-- Look a prim spec up by layer and path. -/
def Store.spec (st : Store) (l : LayerId) (p : Path) : Option PrimSpec :=
  (st.layer l).bind (fun L => lookupBy p L.specs)

/-- Update the value at key `k` of an association list in place. -/
def updateAssoc {κ β : Type} [DecidableEq κ] (k : κ) (f : β → β) :
    List (κ × β) → List (κ × β)
  | [] => []
  | (k0, v) :: es =>
    if k0 = k then (k0, f v) :: updateAssoc k f es
    else (k0, v) :: updateAssoc k f es

/-- Apply a function to one layer of the store, leaving the rest alone. -/
def Store.updateLayer (st : Store) (l : LayerId) (f : Layer → Layer) : Store :=
  ⟨updateAssoc l f st.layers⟩

/-- Apply a function to the prim spec at one path of one layer. -/
def Store.updateSpec (st : Store) (l : LayerId) (p : Path)
    (f : PrimSpec → PrimSpec) : Store :=
  st.updateLayer l (fun L =>
    { L with specs := L.specs.map (fun q => if q.1 = p then (q.1, f q.2) else q) })

/-- The authored child prim names of the spec at `p` in layer `l`:
names `c` such that a spec exists at `p ++ [c]`. -/
def childNamesIn (st : Store) (l : LayerId) (p : Path) : List String :=
  match st.layer l with
  | none => []
  | some L => L.specs.filterMap (fun q =>
      if p.isPrefixOf q.1 && q.1.length == p.length + 1 then q.1.getLast? else none)

/-- Modelled from the spec: a Stage (spec section 3): a root layer, the
set of unloaded payload prim paths (everything else is loaded, matching
the tests' LoadAll default) and the muted-layer set. -/
structure Stage where
  root : LayerId
  unloaded : List Path
  muted : List LayerId
deriving DecidableEq, Repr

/-- A stage opened on a root layer with everything loaded and nothing
muted. -/
def openStage (l : LayerId) : Stage := ⟨l, [], []⟩

/-- Global recursion fuel for arc-chain and sublayer-tree traversals;
all scenarios in the test oracles are well within this depth. -/
def F : Nat := 6

/-- Modelled from the spec: flattening a sublayer tree into a layer stack
(spec section 3, "LayerStack"): depth-first, skipping muted layers, with
explicit cycle detection — a layer already in its own ancestry chain is
reported as an error and that sublayer arc is dropped for composition
purposes.  Returns the stack and the list of cycle errors. -/
def lsf (st : Store) (muted : List LayerId) :
    Nat → List LayerId → List LayerId → List LayerId × List LayerId
  | 0, _, _ => ([], [])
  | fuel + 1, anc, ids =>
    ids.foldl (fun acc l =>
      let r :=
        if l ∈ anc then ([], [l])
        else if l ∈ muted then ([], [])
        else
          match st.layer l with
          | none => ([], [])
          | some L =>
            let sub := lsf st muted fuel (anc ++ [l]) L.sublayers
            (l :: sub.1, sub.2)
      (acc.1 ++ r.1, acc.2 ++ r.2)) ([], [])

/-- The flattened layer stack of a stage. -/
def stageStack (st : Store) (s : Stage) : List LayerId :=
  (lsf st s.muted F [] [s.root]).1

/-- The sublayer-cycle composition errors of a stage (spec section 7:
CompositionError (cycle), recorded and queryable on the Stage,
non-fatal to composition). -/
def stageCycleErrors (st : Store) (s : Stage) : List LayerId :=
  (lsf st s.muted F [] [s.root]).2

/-- The flattened (unmuted) layer stack rooted at a layer. -/
def stackOf (st : Store) (l : LayerId) : List LayerId :=
  (lsf st [] F [] [l]).1

/-- All layers reachable from the given layers through one step of
reference/payload arcs (each arc contributes its target layer's whole
stack). -/
def layerArcTargets (st : Store) (l : LayerId) : List LayerId :=
  match st.layer l with
  | none => []
  | some L => L.specs.flatMap (fun q =>
      ((q.2.references.getD []) ++ (q.2.payload.getD [])).flatMap (fun a =>
        stackOf st (a.layer.getD l)))

/-- One step of the used-layers fixpoint. -/
def usedLayersStep (st : Store) (ls : List LayerId) : List LayerId :=
  dedupFirst (ls ++ ls.flatMap (layerArcTargets st))

/-- Iterated used-layers expansion. -/
def usedLayersFuel (st : Store) : Nat → List LayerId → List LayerId
  | 0, ls => ls
  | fuel + 1, ls => usedLayersFuel st fuel (usedLayersStep st ls)

/-- Modelled from the spec: the set of layers a stage's composition can
reach: its own layer stack plus everything reachable through
reference/payload arcs (spec section 4.4 step 3, dependency discovery). -/
def usedLayers (st : Store) (s : Stage) : List LayerId :=
  usedLayersFuel st F (stageStack st s)

/-- Resolve an arc declared in layer `owner` to its target layer stack
and target prim path; an empty target path resolves through the target
layer's default prim (spec section 4.3 step 3).  `none` means the default
prim is unresolvable — a composition error. -/
def arcTargetStack (st : Store) (owner : LayerId) (a : Arc) :
    Option (List LayerId × Path) :=
  let tl := a.layer.getD owner
  match a.primPath with
  | some p => some (stackOf st tl, p)
  | none =>
    match (st.layer tl).bind (fun L => L.defaultPrim) with
    | some d => some (stackOf st tl, d.resolve)
    | none => none

/-- The arcs of a prim spec in strength order, references before
payloads, payload arcs dropped (without error) when the consuming prim is
unloaded (spec section 4.3 step 4). -/
def specArcs (s : PrimSpec) (loaded : Bool) : List Arc :=
  s.references.getD [] ++ (if loaded then s.payload.getD [] else [])

/-- Modelled from the spec: the missing Pcp composition engine's
PrimIndex expansion (spec section 4.3): the direct nodes are expanded by
resolving every reference/payload arc on each contributing spec,
recursively; the result is the ordered node list together with the
number of composition errors (unresolvable default prim or unresolvable
arc target). -/
def expandNodes (st : Store) (loaded : Bool) :
    Nat → List (LayerId × Path) → List (LayerId × Path) × Nat
  | 0, _ => ([], 0)
  | fuel + 1, nodes =>
    nodes.foldl (fun acc n =>
      match st.spec n.1 n.2 with
      | none => (acc.1 ++ [n], acc.2)
      | some s =>
        (specArcs s loaded).foldl (fun acc2 a =>
          match arcTargetStack st n.1 a with
          | none => (acc2.1, acc2.2 + 1)
          | some (tstack, tp) =>
            let tnodes := tstack.map (fun tl => (tl, tp))
            if tnodes.any (fun m => (st.spec m.1 m.2).isSome) then
              let r := expandNodes st loaded fuel tnodes
              (acc2.1 ++ r.1, acc2.2 + r.2)
            else (acc2.1, acc2.2 + 1))
          (acc.1 ++ [n], acc.2)) ([], 0)

/-- The property names contributed by a node list. -/
def nodeProps (st : Store) (nodes : List (LayerId × Path)) : List String :=
  dedupFirst (nodes.flatMap (fun n =>
    ((st.spec n.1 n.2).map (fun s => s.props.map PropSpec.name)).getD []))

/-- The child prim names contributed by a node list. -/
def nodeChildren (st : Store) (nodes : List (LayerId × Path)) : List String :=
  dedupFirst (nodes.flatMap (fun n => childNamesIn st n.1 n.2))

/-- Modelled from the spec: the composed contents of a prim, flattened
into a list of (relative path, property names) pairs over the composed
subtree, obtained by expanding all arcs at each level and visiting
composed children recursively (spec section 4.3, including step 6's
ancestral arcs: each expanded node's child paths contribute to the
child's own index). -/
def contentsList (st : Store) (loaded : Bool) :
    Nat → Path → List (LayerId × Path) → List (Path × List String)
  | 0, _, _ => []
  | fuel + 1, rel, nodes =>
    let ex := (expandNodes st loaded F nodes).1
    (rel, nodeProps st ex) ::
      (nodeChildren st ex).flatMap (fun c =>
        contentsList st loaded fuel (rel ++ [c])
          (ex.map (fun n => (n.1, n.2 ++ [c]))))

/-- The composed contents of the prim at stage path `p` on stage `s`. -/
def composePrimContents (st : Store) (s : Stage) (p : Path) :
    List (Path × List String) :=
  contentsList st (decide (p ∉ s.unloaded)) F []
    ((stageStack st s).map (fun l => (l, p)))

/-- The number of composition errors (unresolvable arc targets or
default prims) recorded while composing the prim at stage path `p`. -/
def composePrimErrors (st : Store) (s : Stage) (p : Path) : Nat :=
  (expandNodes st (decide (p ∉ s.unloaded)) F
    ((stageStack st s).map (fun l => (l, p)))).2

/-- Modelled from the spec: the missing Sdf layer store's `MoveSpec`
primitive (spec section 4.2): relocates a spec subtree, rewriting each
spec's path by prefix substitution; and on the same call, if the moved
path is a prefix of (or equal to) the current default-prim target, the
default-prim field is rewritten with the same prefix substitution
(cleared if the rewritten target no longer resolves to an existing
spec) — regardless of any stage depending on the layer. -/
def Layer.moveSpecOp (L : Layer) (old new : Path) : Layer :=
  let specs' := L.specs.map (fun q => (movePath old new q.1, q.2))
  let dp' :=
    match L.defaultPrim with
    | none => none
    | some d =>
      if old.isPrefixOf d.resolve then
        let nd := new ++ d.resolve.drop old.length
        if specs'.any (fun q => q.1 = nd) then some (authoredDefault nd) else none
      else some d
  { L with specs := specs', defaultPrim := dp' }

/-- Modelled from the spec: the Layer-store `DeleteSpec` primitive (spec
section 4.2): removes the spec and its whole subtree; if the deleted path
is a prefix of (or equal to) the default-prim target, the default-prim
field is cleared since the target no longer resolves. -/
def Layer.deleteSpecOp (L : Layer) (p : Path) : Layer :=
  { L with
    specs := L.specs.filter (fun q => !(p.isPrefixOf q.1)),
    defaultPrim :=
      match L.defaultPrim with
      | none => none
      | some d => if p.isPrefixOf d.resolve then none else some d }

/-- Modelled from the spec: the primitive spec operations a top-level
edit batch decomposes into (spec sections 4.2 and 4.4): subtree moves and
deletes, composition-field rewrites, type-name edits, property deletes
and moves, and connection/relationship-target list rewrites. -/
inductive EditOp where
  | moveSpec (l : LayerId) (old new : Path)
  | deleteSpec (l : LayerId) (p : Path)
  | setArcs (l : LayerId) (p : Path) (isPayload : Bool) (arcs : List Arc)
  | setTypeName (l : LayerId) (p : Path) (t : String)
  | deleteProp (l : LayerId) (p : Path) (n : String)
  | moveProp (l : LayerId) (srcPrim : Path) (srcName : String)
      (dstPrim : Path) (dstName : String)
  | setTargets (l : LayerId) (p : Path) (n : String) (ts : List OPath)
deriving DecidableEq, Repr

/-- The layer an edit operation mutates. -/
def EditOp.onLayer : EditOp → LayerId
  | .moveSpec l _ _ => l
  | .deleteSpec l _ => l
  | .setArcs l _ _ _ => l
  | .setTypeName l _ _ => l
  | .deleteProp l _ _ => l
  | .moveProp l _ _ _ _ => l
  | .setTargets l _ _ _ => l

/-- Apply one primitive edit operation to the store. -/
def applyOp (st : Store) : EditOp → Store
  | .moveSpec l old new => st.updateLayer l (fun L => L.moveSpecOp old new)
  | .deleteSpec l p => st.updateLayer l (fun L => L.deleteSpecOp p)
  | .setArcs l p ip arcs =>
      st.updateSpec l p (fun s =>
        if ip then { s with payload := some arcs }
        else { s with references := some arcs })
  | .setTypeName l p t => st.updateSpec l p (fun s => { s with typeName := some t })
  | .deleteProp l p n =>
      st.updateSpec l p (fun s =>
        { s with props := s.props.filter (fun pr => !(pr.name = n : Bool)) })
  | .moveProp l sp sn dp dn =>
      let prOpt := (st.spec l sp).bind
        (fun s => s.props.find? (fun pr => pr.name = sn))
      let st1 := st.updateSpec l sp (fun s =>
        { s with props := s.props.filter (fun pr => !(pr.name = sn : Bool)) })
      match prOpt with
      | none => st1
      | some pr =>
        st1.updateSpec l dp (fun s =>
          { s with props := s.props ++ [{ pr with name := dn }] })
  | .setTargets l p n ts =>
      st.updateSpec l p (fun s =>
        { s with props := s.props.map (fun pr =>
            if pr.name = n then { pr with targets := some ts } else pr) })

/-- Apply a batch of primitive edit operations in order. -/
def applyOps (st : Store) (ops : List EditOp) : Store :=
  ops.foldl applyOp st

/-- Modelled from the spec: the missing `Usd.NamespaceEditor` (spec
section 3): bound to one base stage, with a set of explicitly registered
additional dependent stages. -/
structure Editor where
  base : Stage
  dependents : List Stage
deriving DecidableEq, Repr

/-- The stages an editor keeps consistent: its base stage plus the
registered dependent stages. -/
def Editor.stages (e : Editor) : List Stage := e.base :: e.dependents

/-- All layer-stack layers of the editor's stages: these receive the
direct spec moves/deletes (spec section 4.4 steps 1 and 3: sublayer
dependencies of the base and registered stages). -/
def editorStackLayers (st : Store) (e : Editor) : List LayerId :=
  dedupFirst (e.stages.flatMap (stageStack st))

/-- All layers reachable from the editor's stages, including across
reference/payload arcs: only these can be touched by an edit (spec
section 4.4 step 3, dependency discovery). -/
def editorLayers (st : Store) (e : Editor) : List LayerId :=
  dedupFirst (e.stages.flatMap (usedLayers st))

/-- Whether some registered stage consuming layer `l` currently has the
prim at `p` loaded; payload arcs on specs whose consuming stages all have
the prim unloaded are skipped by edit propagation (spec section 4.4 step
4). -/
def consumingLoaded (st : Store) (e : Editor) (l : LayerId) (p : Path) : Bool :=
  e.stages.any (fun s => l ∈ usedLayers st s && p ∉ s.unloaded)

/-- Whether the stack rooted at the arc's target layer contains one of
the layers the direct edit touched. -/
def arcTargetsEdited (st : Store) (editedLs : List LayerId) (l : LayerId)
    (a : Arc) : Bool :=
  (stackOf st (a.layer.getD l)).any (fun x => x ∈ editedLs)

/-- Modelled from the spec: the per-arc rewrite (spec section 4.4 steps 4
and 5): an arc whose explicit target path is at or under the edited path
has its target rewritten by prefix substitution (move) or is cleared
(delete, yielding `none`); an arc with an empty target path is never
rewritten; arcs into unedited layers are untouched. -/
def rewriteArc (st : Store) (editedLs : List LayerId) (old : Path)
    (newOpt : Option Path) (l : LayerId) (a : Arc) : Option Arc :=
  match a.primPath with
  | none => some a
  | some tp =>
    if arcTargetsEdited st editedLs l a then
      if old.isPrefixOf tp then
        match newOpt with
        | some nw => some { a with primPath := some (nw ++ tp.drop old.length) }
        | none => none
      else some a
    else some a

/-- The rewrite of one authored arc list. -/
def rewriteArcList (st : Store) (editedLs : List LayerId) (old : Path)
    (newOpt : Option Path) (l : LayerId) (arcs : List Arc) : List Arc :=
  arcs.filterMap (rewriteArc st editedLs old newOpt l)

/-- Whether rewriting the arc list clears (removes) at least one arc. -/
def arcListCleared (st : Store) (editedLs : List LayerId) (old : Path)
    (newOpt : Option Path) (l : LayerId) (arcs : List Arc) : Bool :=
  arcs.any (fun a => rewriteArc st editedLs old newOpt l a = none)

/-- The rewritten arc list for one spec's references or payload field,
if the rewrite changes it; payload fields of specs whose consuming stages
have the prim unloaded are skipped entirely (spec section 4.4 step 4:
unloaded payload targets are not tracked). -/
def fieldFixArcs (st : Store) (e : Editor) (editedLs : List LayerId)
    (old : Path) (newOpt : Option Path) (l : LayerId) (p : Path)
    (s : PrimSpec) (isPayload : Bool) : Option (List Arc) :=
  match (if isPayload then s.payload else s.references) with
  | none => none
  | some arcs =>
    if isPayload && !consumingLoaded st e l p then none
    else
      let arcs' := rewriteArcList st editedLs old newOpt l arcs
      if arcs' = arcs then none else some arcs'

/-- The composition-field rewrite op for one spec's references or
payload field, when the rewrite changes it. -/
def fieldFixOp (st : Store) (e : Editor) (editedLs : List LayerId) (old : Path)
    (newOpt : Option Path) (l : LayerId) (p : Path) (s : PrimSpec)
    (isPayload : Bool) : Option EditOp :=
  (fieldFixArcs st e editedLs old newOpt l p s isPayload).map
    (fun arcs' => .setArcs l p isPayload arcs')

/-- The local-spec fix demanded by one ancestral arc (spec section 4.4
steps 3 and 4): an arc at `p` targeting a strict ancestor of the edited
path composes the edited prim as a descendant of `p`; the corresponding
local spec (if any) is moved along with the edit when the destination
stays in the arc's target subtree (`(localOld, some localNew)`), and is
deleted (`(localOld, none)`) when it is an "over" that would otherwise be
left carrying opinions for a now-unreachable composed child.  Skipped for
payload arcs whose consuming stages have the prim unloaded. -/
def ancestralFixTarget (st : Store) (e : Editor) (editedLs : List LayerId)
    (old : Path) (newOpt : Option Path) (l : LayerId) (p : Path)
    (isPayload : Bool) (a : Arc) : Option (Path × Option Path) :=
  match a.primPath with
  | none => none
  | some tp =>
    if isPayload && !consumingLoaded st e l p then none
    else if arcTargetsEdited st editedLs l a &&
        tp.isPrefixOf old && decide (tp.length < old.length) then
      let localOld := p ++ old.drop tp.length
      match st.spec l localOld with
      | none => none
      | some ls =>
        match newOpt with
        | some nw =>
          if tp.isPrefixOf nw then
            some (localOld, some (p ++ nw.drop tp.length))
          else if ls.isOver then some (localOld, none) else none
        | none => if ls.isOver then some (localOld, none) else none
    else none

/-- The edit op for one ancestral local-spec fix. -/
def ancestralFixOp (st : Store) (e : Editor) (editedLs : List LayerId)
    (old : Path) (newOpt : Option Path) (l : LayerId) (p : Path)
    (isPayload : Bool) (a : Arc) : Option EditOp :=
  (ancestralFixTarget st e editedLs old newOpt l p isPayload a).map
    (fun t =>
      match t.2 with
      | some nw => .moveSpec l t.1 nw
      | none => .deleteSpec l t.1)

/-- The path of the "over" child spec to prune under a prim one of whose
arcs was cleared (spec section 4.4 step 4: an over spec that existed
solely to carry opinions for the now-invalid composed child is deleted,
so a stale partial spec cannot be resurrected later). -/
def pruneFixChild (st : Store) (l : LayerId) (p : Path) (c : String) :
    Option Path :=
  match st.spec l (p ++ [c]) with
  | none => none
  | some cs => if cs.isOver then some (p ++ [c]) else none

/-- The edit op pruning one over child of a prim with a cleared arc. -/
def pruneFixOp (st : Store) (l : LayerId) (p : Path) (c : String) :
    Option EditOp :=
  (pruneFixChild st l p c).map (fun q => .deleteSpec l q)

/-- The rewritten target list for one property, if the edit changes it
(spec section 4.5: target and connection lists elsewhere on the stage are
updated to the new path, or have the deleted path removed). -/
def propTargetsFix (old : Path) (newOpt : Option Path) (pr : PropSpec) :
    Option (List OPath) :=
  match pr.targets with
  | none => none
  | some ts =>
    let ts' := ts.filterMap (fun t =>
      if old.isPrefixOf t.1 then
        match newOpt with
        | some nw => some (nw ++ t.1.drop old.length, t.2)
        | none => none
      else some t)
    if ts' = ts then none else some ts'

/-- The edit op for one relationship-target / attribute-connection fix. -/
def propTargetsFixOp (old : Path) (newOpt : Option Path) (l : LayerId)
    (p : Path) (pr : PropSpec) : Option EditOp :=
  (propTargetsFix old newOpt pr).map (fun ts' => .setTargets l p pr.name ts')

/-- All propagated fix operations contributed by one spec of one
dependent layer for a prim move/delete. -/
def specFixOps (st : Store) (e : Editor) (editedLs : List LayerId)
    (old : Path) (newOpt : Option Path) (l : LayerId) (p : Path)
    (s : PrimSpec) : List EditOp :=
  let refFix := fieldFixOp st e editedLs old newOpt l p s false
  let payFix := fieldFixOp st e editedLs old newOpt l p s true
  let cleared :=
    (decide (newOpt = none)) &&
    ((!(refFix = none) && arcListCleared st editedLs old newOpt l
        (s.references.getD [])) ||
     (!(payFix = none) && arcListCleared st editedLs old newOpt l
        (s.payload.getD [])))
  [refFix, payFix].reduceOption ++
    ((s.references.getD []).filterMap
      (ancestralFixOp st e editedLs old newOpt l p false) ++
     (s.payload.getD []).filterMap
      (ancestralFixOp st e editedLs old newOpt l p true)) ++
    (childNamesIn st l p).filterMap (fun c =>
      if cleared then pruneFixOp st l p c else none) ++
    s.props.filterMap (propTargetsFixOp old newOpt l p)

/-- Modelled from the spec: the missing namespace editor's operation
list for `MovePrimAtPath` (`newOpt = some new`) or `DeletePrimAtPath`
(`newOpt = none`) through an editor (spec section 4.4): direct spec
moves/deletes on every stack layer of the base and registered dependent
stages that contributes a spec at the edited path, followed by the
propagated per-arc rewrites, ancestral local-spec fixes, over-pruning and
target-list fixes on every layer reachable from those stages. -/
def editorMoveOps (st : Store) (e : Editor) (old : Path)
    (newOpt : Option Path) : List EditOp :=
  let editedLs := (editorStackLayers st e).filter
    (fun l => (st.spec l old).isSome)
  let directOps := editedLs.map (fun l =>
    match newOpt with
    | some nw => EditOp.moveSpec l old nw
    | none => EditOp.deleteSpec l old)
  let fixOps := (editorLayers st e).flatMap (fun l =>
    match st.layer l with
    | none => []
    | some L => L.specs.flatMap (fun q =>
        specFixOps st e editedLs old newOpt l q.1 q.2))
  directOps ++ fixOps

/-- `MovePrimAtPath` applied and committed through an editor. -/
def applyMovePrim (st : Store) (e : Editor) (old nw : Path) : Store :=
  applyOps st (editorMoveOps st e old (some nw))

/-- `DeletePrimAtPath` applied and committed through an editor. -/
def applyDeletePrim (st : Store) (e : Editor) (p : Path) : Store :=
  applyOps st (editorMoveOps st e p none)

/-- Modelled from the spec: `DeleteProperty` through an editor: direct
property deletion on every contributing stack layer, plus removal of the
deleted property path from every connection/target list on every
reachable layer (spec sections 4.4 and 4.5). -/
def editorDeletePropOps (st : Store) (e : Editor) (pp : Path) (n : String) :
    List EditOp :=
  let editedLs := (editorStackLayers st e).filter (fun l =>
    ((st.spec l pp).map (fun s => s.props.any (fun pr => pr.name == n))).getD false)
  let directOps := editedLs.map (fun l => EditOp.deleteProp l pp n)
  let fixOps := (editorLayers st e).flatMap (fun l =>
    match st.layer l with
    | none => []
    | some L => L.specs.flatMap (fun q =>
        q.2.props.filterMap (fun pr =>
          match pr.targets with
          | none => none
          | some ts =>
            let ts' := ts.filter (fun t => !(t = (pp, some n) : Bool))
            if ts' = ts then none else some (.setTargets l q.1 pr.name ts'))))
  directOps ++ fixOps

/-- Modelled from the spec: `MovePropertyAtPath` through an editor:
direct property moves on every contributing stack layer, plus rewriting
of every connection/target list entry that pointed at the moved property
(spec sections 4.4 and 4.5). -/
def editorMovePropOps (st : Store) (e : Editor) (sp : Path) (sn : String)
    (dp : Path) (dn : String) : List EditOp :=
  let editedLs := (editorStackLayers st e).filter (fun l =>
    ((st.spec l sp).map (fun s => s.props.any (fun pr => pr.name == sn))).getD false)
  let directOps := editedLs.map (fun l => EditOp.moveProp l sp sn dp dn)
  let fixOps := (editorLayers st e).flatMap (fun l =>
    match st.layer l with
    | none => []
    | some L => L.specs.flatMap (fun q =>
        q.2.props.filterMap (fun pr =>
          match pr.targets with
          | none => none
          | some ts =>
            let ts' := ts.map (fun t =>
              if t = (sp, some sn) then ((dp, some dn) : OPath) else t)
            if ts' = ts then none else some (.setTargets l q.1 pr.name ts'))))
  directOps ++ fixOps

/-- Modelled from the spec: one logged change produced by a primitive
spec operation (spec section 4.5): the affected layer, the object path,
the changed field names, and whether the change is structural (existence,
type or composition structure) or info-only. -/
structure ChangeEntry where
  onLayer : LayerId
  path : OPath
  fields : List String
  structural : Bool
deriving DecidableEq, Repr

/-- The change entries logged for one primitive operation against the
store state it executes in: spec moves/deletes and property
moves/deletes are structural; composition-field and type-name edits are
structural with the field named; target/connection list rewrites are
info-only, named `targetPaths` for relationships and `connectionPaths`
for attribute connections (spec section 4.5). -/
def opChanges (st : Store) : EditOp → List ChangeEntry
  | .moveSpec l old nw =>
      [⟨l, (old, none), [], true⟩, ⟨l, (nw, none), [], true⟩]
  | .deleteSpec l p => [⟨l, (p, none), [], true⟩]
  | .setArcs l p ip _ =>
      [⟨l, (p, none), [if ip then "payload" else "references"], true⟩]
  | .setTypeName l p _ => [⟨l, (p, none), ["typeName"], true⟩]
  | .deleteProp l p n => [⟨l, (p, some n), [], true⟩]
  | .moveProp l sp sn dp dn =>
      [⟨l, (sp, some sn), [], true⟩, ⟨l, (dp, some dn), [], true⟩]
  | .setTargets l p n _ =>
      let isR := (((st.spec l p).bind
        (fun s => s.props.find? (fun pr => pr.name == n))).map
          PropSpec.isRel).getD false
      [⟨l, (p, some n), [if isR then "targetPaths" else "connectionPaths"], false⟩]

/-- Modelled from the spec: a grouped change block / top-level batch
(spec sections 4.5 and 5): the primitive operations are applied in order
while their change entries are accumulated; notification is deferred to
the end of the batch. -/
def applyBatch (st : Store) (ops : List EditOp) : Store × List ChangeEntry :=
  ops.foldl (fun acc op => (applyOp acc.1 op, acc.2 ++ opChanges acc.1 op))
    (st, [])

/-- Modelled from the spec: a consolidated ObjectsChanged notice (spec
section 4.5): resynced object paths (with the fields that changed there)
and changed-info-only object paths. -/
structure Notice where
  resynced : List (OPath × List String)
  changedInfoOnly : List (OPath × List String)
deriving DecidableEq, Repr

/-- Whether `p` lies strictly under the prim path `q` (including `q`'s
own properties): used to subsume descendants of resynced prims. -/
def underPrim (q p : OPath) : Bool :=
  q.2 = none && q.1.isPrefixOf p.1 && !(p = q : Bool)

/-- The distinct changed object paths of a change-entry list. -/
def entryPaths (es : List ChangeEntry) : List OPath :=
  dedupFirst (es.map ChangeEntry.path)

/-- Whether some entry at `p` is structural. -/
def isStructuralAt (es : List ChangeEntry) (p : OPath) : Bool :=
  es.any (fun en => en.path = p && en.structural)

/-- The union of changed field names recorded at `p`. -/
def fieldsAt (es : List ChangeEntry) (p : OPath) : List String :=
  dedupFirst ((es.filter (fun en => en.path = p)).flatMap ChangeEntry.fields)

/-- Modelled from the spec: the single consolidated notice computed for
one stage at the end of a batch (spec section 4.5): paths with a
structural change are resynced (descendants of a resynced prim are
subsumed, not listed); paths with only non-structural changes are
changed-info-only; `none` when the batch did not touch any layer the
stage uses. -/
def noticeFor (st : Store) (s : Stage) (es : List ChangeEntry) :
    Option Notice :=
  let rel := es.filter (fun en => en.onLayer ∈ usedLayers st s)
  if rel.isEmpty then none
  else
    let paths := entryPaths rel
    let resync0 := paths.filter (isStructuralAt rel)
    let resync := resync0.filter (fun p =>
      !(resync0.any (fun q => underPrim q p)))
    let info := paths.filter (fun p =>
      !(isStructuralAt rel p) && !(resync.any (fun q => underPrim q p)))
    some ⟨resync.map (fun p => (p, fieldsAt rel p)),
          info.map (fun p => (p, fieldsAt rel p))⟩

/-- Modelled from the spec: dispatching after a top-level batch (spec
section 4.5): exactly one consolidated notice per stage the batch
affected, tagged by the stage's listener key. -/
def batchNotices (st : Store) (stages : List (Nat × Stage))
    (ops : List EditOp) : List (Nat × Notice) :=
  stages.filterMap (fun is =>
    (noticeFor st is.2 (applyBatch st ops).2).map (fun n => (is.1, n)))

/-!
Scenario A — the basic dependent-references setup of
`test_BasicDependentReferences`: layer 1 holds the `/Ref` hierarchy plus
three internally referencing prims; layer 2 references `/Ref`,
`/Ref/Child` and `/Ref/Child/GrandChild` from layer 1; stage 2 is
registered as a dependent stage of stage 1's editor.
-/

def layer1A : Layer := mkLayer [
  (["Ref"], defSpec ["refAttr"]),
  (["Ref", "Child"], defSpec ["childAttr"]),
  (["Ref", "Child", "GrandChild"], defSpec ["grandChildAttr"]),
  (["InternalRef1"], defSpecRefs ["localAttr"] [⟨none, some ["Ref"]⟩]),
  (["InternalRef1", "Child"], overSpec ["overChildAttr"]),
  (["InternalRef1", "Child", "GrandChild"], overSpec ["overGrandChildAttr"]),
  (["InternalRef1", "LocalChild"], defSpec []),
  (["InternalRef2"], defSpecRefs ["localAttr"] [⟨none, some ["Ref", "Child"]⟩]),
  (["InternalRef2", "GrandChild"], overSpec ["overGrandChildAttr"]),
  (["InternalRef2", "LocalChild"], defSpec []),
  (["InternalRef3"], defSpecRefs ["localAttr"]
    [⟨none, some ["Ref", "Child", "GrandChild"]⟩]),
  (["InternalRef3", "LocalChild"], defSpec [])]

def layer2A : Layer := mkLayer [
  (["Prim1"], defSpecRefs ["localAttr"] [⟨some 1, some ["Ref"]⟩]),
  (["Prim1", "Child"], overSpec ["overChildAttr"]),
  (["Prim1", "Child", "GrandChild"], overSpec ["overGrandChildAttr"]),
  (["Prim1", "LocalChild"], defSpec []),
  (["Prim2"], defSpecRefs ["localAttr"] [⟨some 1, some ["Ref", "Child"]⟩]),
  (["Prim2", "GrandChild"], overSpec ["overGrandChildAttr"]),
  (["Prim2", "LocalChild"], defSpec []),
  (["Prim3"], defSpecRefs ["localAttr"]
    [⟨some 1, some ["Ref", "Child", "GrandChild"]⟩]),
  (["Prim3", "LocalChild"], defSpec [])]

def storeA : Store := ⟨[(1, layer1A), (2, layer2A)]⟩

def stage1A : Stage := openStage 1

def stage2A : Stage := openStage 2

def editorA : Editor := ⟨stage1A, [stage2A]⟩

/-- Scenario A after renaming `/Ref/Child` to `/Ref/RenamedChild`. -/
def storeA1 : Store := applyMovePrim storeA editorA ["Ref", "Child"]
  ["Ref", "RenamedChild"]

/-- Scenario A after moving `/Ref/Child` out to `/MovedChild` and then
back to `/Ref/Child` (the inverse-move pair of the tests). -/
def storeA2 : Store := applyMovePrim storeA editorA ["Ref", "Child"]
  ["MovedChild"]

def storeA3 : Store := applyMovePrim storeA2 editorA ["MovedChild"]
  ["Ref", "Child"]

/-- Scenario A after deleting `/Ref/Child`. -/
def storeAD : Store := applyDeletePrim storeA editorA ["Ref", "Child"]


/-!
Scenario B — the sublayer-propagation setup of
`test_BasicDependentSublayers`: layer 1 is the base; layer 2 sublayers
layer 1; layer 3 sublayers layer 2 and layer 3Sub (id 5); layer 4
sublayers layer 3.  Only stage 3 is registered as a dependent stage, so
layer 4 is never edited.
-/

def overTreeB (tag : String) : List (Path × PrimSpec) := [
  (["Ref"], overSpec ["over" ++ tag ++ "RefAttr"]),
  (["Ref", "Child"], overSpec ["over" ++ tag ++ "ChildAttr"]),
  (["Ref", "Child", "GrandChild"], overSpec ["over" ++ tag ++ "GrandChildAttr"])]

def layer1B : Layer := mkLayer [
  (["Ref"], defSpec ["refAttr"]),
  (["Ref", "Child"], defSpec ["childAttr"]),
  (["Ref", "Child", "GrandChild"], defSpec ["grandChildAttr"])]

def layer2B : Layer := { mkLayer (overTreeB "2") with sublayers := [1] }

def layer3SubB : Layer := mkLayer (overTreeB "Sub3")

def layer3B : Layer := { mkLayer (overTreeB "3") with sublayers := [2, 5] }

def layer4B : Layer := { mkLayer (overTreeB "4") with sublayers := [3] }

def storeB : Store :=
  ⟨[(1, layer1B), (2, layer2B), (3, layer3B), (4, layer4B), (5, layer3SubB)]⟩

def stage1B : Stage := openStage 1

def stage3B : Stage := openStage 3

def stage4B : Stage := openStage 4

def editorB : Editor := ⟨stage1B, [stage3B]⟩

def storeB1 : Store := applyMovePrim storeB editorB ["Ref", "Child"]
  ["Ref", "RenamedChild"]

def storeB2 : Store := applyMovePrim storeB editorB ["Ref", "Child"]
  ["MovedChild"]

def storeB3 : Store := applyMovePrim storeB2 editorB ["MovedChild"]
  ["Ref", "Child"]


/-!
Scenario C — the payload setup of `test_BasicDependentPayloads`:
layer 1 holds the `/Ref` hierarchy; layer 2's three prims attach
payloads to `/Ref`, `/Ref/Child` and `/Ref/Child/GrandChild`.
-/

def layer2C : Layer := mkLayer [
  (["Prim1"], defSpecPayload ["localAttr"] [⟨some 1, some ["Ref"]⟩]),
  (["Prim1", "Child"], overSpec ["overChildAttr"]),
  (["Prim1", "Child", "GrandChild"], overSpec ["overGrandChildAttr"]),
  (["Prim1", "LocalChild"], defSpec []),
  (["Prim2"], { defSpecPayload ["overChildAttr", "localAttr"]
    [⟨some 1, some ["Ref", "Child"]⟩] with isOver := false }),
  (["Prim2", "GrandChild"], overSpec ["overGrandChildAttr"]),
  (["Prim2", "LocalChild"], defSpec []),
  (["Prim3"], defSpecPayload ["localAttr"]
    [⟨some 1, some ["Ref", "Child", "GrandChild"]⟩]),
  (["Prim3", "LocalChild"], defSpec [])]

def storeC : Store := ⟨[(1, layer1B), (2, layer2C)]⟩

def stage1C : Stage := openStage 1

/-- Stage 2 of scenario C with everything loaded. -/
def stage2C : Stage := openStage 2

/-- Stage 2 of scenario C after `Unload('/Prim1')` and
`Unload('/Prim3')`. -/
def stage2CU : Stage := ⟨2, [["Prim1"], ["Prim3"]], []⟩

def editorC : Editor := ⟨stage1C, [stage2C]⟩

/-- The editor once stage 2 has `/Prim1` and `/Prim3` unloaded. -/
def editorCU : Editor := ⟨stage1C, [stage2CU]⟩

/-- Scenario C after renaming `/Ref/Child` to `/Ref/RenamedChild` with
everything loaded. -/
def storeC1 : Store := applyMovePrim storeC editorC ["Ref", "Child"]
  ["Ref", "RenamedChild"]

/-- Scenario C after additionally renaming `/Ref/RenamedChild` back to
`/Ref/Child` while `/Prim1` and `/Prim3` are unloaded. -/
def storeC2 : Store := applyMovePrim storeC1 editorCU
  ["Ref", "RenamedChild"] ["Ref", "Child"]


/-!
Scenario D — the default-prim tracking setup of `test_LayerDefaultPrim`:
layer 1 has `defaultPrim = "Ref"`, the `/Ref` hierarchy and `/World`;
the editor has no registered dependent stage at all.
-/

def layer1D : Layer :=
  { specs := [
      (["Ref"], defSpec ["refAttr"]),
      (["Ref", "Child"], defSpec ["childAttr"]),
      (["World"], defSpec [])],
    defaultPrim := some (.byName "Ref"),
    sublayers := [] }

def storeD : Store := ⟨[(1, layer1D)]⟩

def stage1D : Stage := openStage 1

def editorD : Editor := ⟨stage1D, []⟩

def storeD1 : Store := applyMovePrim storeD editorD ["Ref"] ["RenamedRef"]

def storeD2 : Store := applyMovePrim storeD1 editorD ["RenamedRef"]
  ["World", "RenamedRef"]

def storeD3 : Store := applyMovePrim storeD2 editorD ["World"] ["NewWorld"]

def storeD4 : Store := applyMovePrim storeD3 editorD
  ["NewWorld", "RenamedRef"] ["Ref"]

def storeD5 : Store := applyDeletePrim storeD4 editorD ["Ref"]


/-!
Scenario E — the default-prim-relative arc setup of the second half of
`test_LayerDefaultPrim`: layers 2 and 3 have identical contents, each
with a reference and a payload to layer 1's default prim (empty target
path) and an explicit reference and payload to `/Ref`.  Only stage 2 is
registered as a dependent stage; stage 3 is not.
-/

def arcLayerE : Layer := mkLayer [
  (["RefToDefault"], ⟨false, none, [], some [⟨some 1, none⟩], none⟩),
  (["PayloadToDefault"], ⟨false, none, [], none, some [⟨some 1, none⟩]⟩),
  (["RefToExplicit"], ⟨false, none, [], some [⟨some 1, some ["Ref"]⟩], none⟩),
  (["PayloadToExplicit"], ⟨false, none, [], none, some [⟨some 1, some ["Ref"]⟩]⟩)]

def layer1E : Layer :=
  { specs := [
      (["Ref"], defSpec ["refAttr"]),
      (["Ref", "Child"], defSpec ["childAttr"])],
    defaultPrim := some (.byName "Ref"),
    sublayers := [] }

def storeE : Store := ⟨[(1, layer1E), (2, arcLayerE), (3, arcLayerE)]⟩

def stage1E : Stage := openStage 1

def stage2E : Stage := openStage 2

def stage3E : Stage := openStage 3

def editorE : Editor := ⟨stage1E, [stage2E]⟩

def storeE1 : Store := applyMovePrim storeE editorE ["Ref"] ["RenamedRef"]


/-!
Scenario F — the notice-batching setup of `testUsdObjectsChangedNotices`:
a single layer with `/Parent1` (attributes `attr1`..`attr3`, a connection
from `attr2` to `attr3`, a relationship `rel1` targeting
`/Parent1/Child1`, children `Child1` and `Child2`) and `/Parent2`.
-/

def layerF : Layer := mkLayer [
  (["Parent1"], ⟨false, some "Scope",
    [atr "attr1",
     ⟨"attr2", false, some [(["Parent1"], some "attr3")]⟩,
     atr "attr3",
     ⟨"rel1", true, some [(["Parent1", "Child1"], none)]⟩],
    none, none⟩),
  (["Parent1", "Child1"], defSpec []),
  (["Parent1", "Child2"], defSpec []),
  (["Parent2"], defSpec [])]

def storeF : Store := ⟨[(6, layerF)]⟩

def stageF : Stage := openStage 6

def editorF : Editor := ⟨stageF, []⟩

/-- The primitive-op batch of `test_NamespaceEditorRenamePrim`:
renaming `/Parent1/Child1` to `Child3`. -/
def renameChildOpsF : List EditOp :=
  editorMoveOps storeF editorF ["Parent1", "Child1"]
    (some ["Parent1", "Child3"])

/-- The primitive-op batch of `test_SdfChangeBlockChangeTypeThenDelete`:
a change block that retypes `/Parent1` and then deletes it. -/
def blockOpsF : List EditOp :=
  [.setTypeName 6 ["Parent1"] "Cylinder", .deleteSpec 6 ["Parent1"]]

/-- The primitive-op batch of `test_NamespaceEditorMovePrimAtPath`:
moving `/Parent2` to `/Parent1/Parent3`. -/
def movePrimOpsF : List EditOp :=
  editorMoveOps storeF editorF ["Parent2"] (some ["Parent1", "Parent3"])

/-- The primitive-op batch of `test_NamespaceEditorDeleteProperty`:
deleting `/Parent1.attr3`. -/
def deletePropOpsF : List EditOp :=
  editorDeletePropOps storeF editorF ["Parent1"] "attr3"

/-- The primitive-op batch of `test_NamespaceEditorMovePropertyAtPath`:
moving `/Parent1.attr3` to `/Parent2.newName`. -/
def movePropOpsF : List EditOp :=
  editorMovePropOps storeF editorF ["Parent1"] "attr3" ["Parent2"] "newName"


/-!
Scenario G — the sublayer-cycle setup of `AddSublayerWithCycle` and
`UnmuteWithCycle` in `testUsdChangeProcessing`: root (id 10) sublayers b
(id 12), b sublayers a (id 11); adding b as a sublayer of a closes a
cycle through every stage; muting b on the root stage breaks it there.
-/

def storeG0 : Store := ⟨[
  (10, ⟨[([], defSpec [])], none, [12]⟩),
  (11, ⟨[([], defSpec [])], none, []⟩),
  (12, ⟨[([], defSpec [])], none, [11]⟩)]⟩

/-- Scenario G after `a.subLayerPaths.append("b.usda")` closes the
cycle. -/
def storeG1 : Store := ⟨[
  (10, ⟨[([], defSpec [])], none, [12]⟩),
  (11, ⟨[([], defSpec [])], none, [12]⟩),
  (12, ⟨[([], defSpec [])], none, [11]⟩)]⟩

def stageRootG : Stage := openStage 10

def stageAG : Stage := openStage 11

def stageBG : Stage := openStage 12

/-- The root stage with layer b muted. -/
def stageRootGMuted : Stage := ⟨10, [], [12]⟩


/-- C1: for every layer-2 prim whose reference arc targets a path at or
under the renamed prim `/Ref/Child`, applying `MovePrimAtPath` through an
editor whose dependent stages include layer 2's stage rewrites that arc's
target path with the prefix substitution to `/Ref/RenamedChild`, and the
referencing prim's composed contents (child prims and properties) are
unchanged by the edit. -/
theorem C1_dependent_reference_rewrite :
    ∀ q ∈ layer2A.specs, ∀ a ∈ q.2.references.getD [], ∀ tp : Path,
      a.primPath = some tp → (["Ref", "Child"] : Path).isPrefixOf tp →
      ({ a with primPath := some (["Ref", "RenamedChild"] ++ tp.drop 2) } ∈
        ((storeA1.spec 2 q.1).map (fun s => s.references.getD [])).getD []) ∧
      composePrimContents storeA1 stage2A q.1 =
        composePrimContents storeA stage2A q.1 := by decide

/-- C1 witness: the rewrite and contents-preservation instantiated at
`/Prim2`, whose reference targeted `/Ref/Child` exactly. -/
theorem C1_dependent_reference_rewrite_witness :
    ({ layer := some 1,
       primPath := some (["Ref", "RenamedChild"] ++
         (["Ref", "Child"] : Path).drop 2) : Arc } ∈
      ((storeA1.spec 2 ["Prim2"]).map (fun s => s.references.getD [])).getD []) ∧
    composePrimContents storeA1 stage2A ["Prim2"] =
      composePrimContents storeA stage2A ["Prim2"] :=
  C1_dependent_reference_rewrite
    (["Prim2"], defSpecRefs ["localAttr"] [⟨some 1, some ["Ref", "Child"]⟩])
    (by decide) ⟨some 1, some ["Ref", "Child"]⟩ (by decide)
    ["Ref", "Child"] rfl (by decide)

/-- C2: moving `/Ref/Child` out to `/MovedChild` and then back through
the same editor restores the composed contents of every affected prim on
the base and dependent stages — exactly (down to the stores being equal)
in the pure-sublayer scenario, and up to the permanent loss of the "over"
specs that existed solely to shadow a composed child made unreachable
during the intermediate state in the reference scenario: the over at
`/Prim1/Child` is deleted and the inverse move does not restore it. -/
theorem C2_inverse_move_up_to_over_pruning :
    storeB3 = storeB ∧
    composePrimContents storeA3 stage1A ["InternalRef2"] =
      composePrimContents storeA stage1A ["InternalRef2"] ∧
    composePrimContents storeA3 stage1A ["InternalRef3"] =
      composePrimContents storeA stage1A ["InternalRef3"] ∧
    composePrimContents storeA3 stage2A ["Prim2"] =
      composePrimContents storeA stage2A ["Prim2"] ∧
    composePrimContents storeA3 stage2A ["Prim3"] =
      composePrimContents storeA stage2A ["Prim3"] ∧
    storeA.spec 2 ["Prim1", "Child"] =
      some (overSpec ["overChildAttr"]) ∧
    storeA3.spec 2 ["Prim1", "Child"] = none ∧
    composePrimContents storeA3 stage2A ["Prim1"] =
      [([], ["localAttr", "refAttr"]), (["LocalChild"], []),
       (["Child"], ["childAttr"]),
       (["Child", "GrandChild"], ["grandChildAttr"])] ∧
    composePrimContents storeA3 stage2A ["Prim1"] ≠
      composePrimContents storeA stage2A ["Prim1"] := by decide

/-- C3: a dependent payload arc whose consuming stage has the target
prim unloaded at edit time is skipped by the propagated rename — the
payload field keeps the stale pre-edit path — and a later Load composes
against the stale path, yielding one composition error and no
contributed payload opinions, while the still-loaded payload prim was
rewritten and composes cleanly. -/
theorem C3_unloaded_payload_skipped :
    (storeC2.spec 2 ["Prim3"]).map PrimSpec.payload =
      some (some [⟨some 1, some ["Ref", "RenamedChild", "GrandChild"]⟩]) ∧
    (storeC2.spec 2 ["Prim2"]).map PrimSpec.payload =
      some (some [⟨some 1, some ["Ref", "Child"]⟩]) ∧
    composePrimErrors storeC2 stage2C ["Prim3"] = 1 ∧
    composePrimContents storeC2 stage2C ["Prim3"] =
      [([], ["localAttr"]), (["LocalChild"], [])] ∧
    composePrimErrors storeC2 stage2C ["Prim2"] = 0 := by decide

/-- C4: deleting `/Ref/Child` through the editor clears every dependent
arc — in the base stage's layer 1 and the registered dependent stage's
layer 2 — whose target path is the deleted path or a descendant of it:
the composition field's applied value becomes the empty list, the field
itself is not removed from the spec, and the referencing prim spec is not
deleted. -/
theorem C4_delete_clears_dependent_arcs :
    ∀ lq ∈ storeA.layers, ∀ q ∈ lq.2.specs, ∀ a ∈ q.2.references.getD [],
      ∀ tp : Path, a.primPath = some tp →
      (["Ref", "Child"] : Path).isPrefixOf tp →
      (storeAD.spec lq.1 q.1).map PrimSpec.references =
        some (some []) := by decide

/-- C4 witness: instantiated at layer 2's `/Prim2`, which referenced the
deleted path `/Ref/Child` exactly: its references field is present but
empty after the delete (and in particular the spec still exists). -/
theorem C4_delete_clears_dependent_arcs_witness :
    (storeAD.spec 2 ["Prim2"]).map PrimSpec.references = some (some []) :=
  C4_delete_clears_dependent_arcs (2, layer2A) (by decide)
    (["Prim2"], defSpecRefs ["localAttr"] [⟨some 1, some ["Ref", "Child"]⟩])
    (by decide) ⟨some 1, some ["Ref", "Child"]⟩ (by decide)
    ["Ref", "Child"] rfl (by decide)

/-- C5: moves and deletes of prims at or above the layer's default-prim
target rewrite the default-prim field with the same prefix substitution —
authored as just the prim name when the new target is a root prim and as
an absolute path otherwise — and clear it entirely when the target no
longer resolves to an existing spec after the edit; the editor here has
no registered dependent stage at all. -/
theorem C5_default_prim_tracking :
    (storeD1.layer 1).map Layer.defaultPrim =
      some (some (.byName "RenamedRef")) ∧
    (storeD2.layer 1).map Layer.defaultPrim =
      some (some (.byPath ["World", "RenamedRef"])) ∧
    (storeD3.layer 1).map Layer.defaultPrim =
      some (some (.byPath ["NewWorld", "RenamedRef"])) ∧
    (storeD4.layer 1).map Layer.defaultPrim =
      some (some (.byName "Ref")) ∧
    (storeD5.layer 1).map Layer.defaultPrim = some none ∧
    editorD.dependents = [] := by decide

/-- C6: a reference or payload arc with an empty target path ("use the
target layer's default prim") is never rewritten by a namespace edit that
moves the default-prim target — `rewriteArc` maps any such arc to itself,
for any store and edit — and after renaming `/Ref` to `/RenamedRef` the
authored empty-path arcs are unchanged on the registered and the
unregistered consuming stage alike, while still resolving to the moved
prim with unchanged composed contents. -/
theorem C6_default_prim_relative_arcs :
    ((storeE1.spec 2 ["RefToDefault"]).map PrimSpec.references =
      some (some [⟨some 1, none⟩]) ∧
     (storeE1.spec 2 ["PayloadToDefault"]).map PrimSpec.payload =
      some (some [⟨some 1, none⟩]) ∧
     (storeE1.spec 3 ["RefToDefault"]).map PrimSpec.references =
      some (some [⟨some 1, none⟩]) ∧
     (storeE1.spec 3 ["PayloadToDefault"]).map PrimSpec.payload =
      some (some [⟨some 1, none⟩]) ∧
     composePrimContents storeE1 stage2E ["RefToDefault"] =
       composePrimContents storeE stage2E ["RefToDefault"] ∧
     composePrimContents storeE1 stage2E ["PayloadToDefault"] =
       composePrimContents storeE stage2E ["PayloadToDefault"] ∧
     composePrimContents storeE1 stage3E ["RefToDefault"] =
       composePrimContents storeE stage3E ["RefToDefault"] ∧
     composePrimContents storeE1 stage3E ["PayloadToDefault"] =
       composePrimContents storeE stage3E ["PayloadToDefault"]) ∧
    ∀ (st : Store) (editedLs : List LayerId) (old : Path)
      (newOpt : Option Path) (l : LayerId) (a : Arc), a.primPath = none →
      rewriteArc st editedLs old newOpt l a = some a :=
  ⟨by decide, by intro st editedLs old newOpt l a h; simp [rewriteArc, h]⟩

/-- C6 witness: the never-rewritten property instantiated at the
authored default-prim-relative reference arc of scenario E, for the edit
that renamed `/Ref`. -/
theorem C6_default_prim_relative_arcs_witness :
    rewriteArc storeE [1] ["Ref"] (some ["RenamedRef"]) 2 ⟨some 1, none⟩ =
      some ⟨some 1, none⟩ :=
  C6_default_prim_relative_arcs.2 storeE [1] ["Ref"] (some ["RenamedRef"]) 2
    ⟨some 1, none⟩ rfl

/-- C9: a stage whose layer stack contains a sublayer cycle reports the
cycle in its queryable composition-error list — on each stage touching
the cycle — while composition otherwise still succeeds (the erroring
sublayer arc is simply dropped from the stack); muting a layer that
breaks the cycle returns the error count to zero. -/
theorem C9_sublayer_cycle_errors :
    (stageCycleErrors storeG0 stageRootG).length = 0 ∧
    (stageCycleErrors storeG0 stageAG).length = 0 ∧
    (stageCycleErrors storeG0 stageBG).length = 0 ∧
    (stageCycleErrors storeG1 stageRootG).length = 1 ∧
    (stageCycleErrors storeG1 stageAG).length = 1 ∧
    (stageCycleErrors storeG1 stageBG).length = 1 ∧
    (stageCycleErrors storeG1 stageRootGMuted).length = 0 ∧
    stageStack storeG1 stageRootG = [10, 12, 11] ∧
    stageStack storeG1 stageRootGMuted = [10] := by decide

/-- C10: namespace edits fix up relationship target paths and attribute
connection paths that point at the edited object — rewriting them to the
new path on a rename or property move, removing them on a property
delete — as part of the same batch, and the single consolidated notice
reports these fix-ups as changed-info-only entries carrying the
`targetPaths` / `connectionPaths` field, while the edited object paths
themselves are the resynced entries. -/
theorem C10_target_and_connection_fixups :
    batchNotices storeF [(0, stageF)] renameChildOpsF =
      [(0, ⟨[((["Parent1", "Child1"], none), []),
             ((["Parent1", "Child3"], none), [])],
            [((["Parent1"], some "rel1"), ["targetPaths"])]⟩)] ∧
    ((applyOps storeF renameChildOpsF).spec 6 ["Parent1"]).map (fun s =>
      (s.props.find? (fun pr => pr.name == "rel1")).map PropSpec.targets) =
      some (some (some [(["Parent1", "Child3"], none)])) ∧
    batchNotices storeF [(0, stageF)] deletePropOpsF =
      [(0, ⟨[((["Parent1"], some "attr3"), [])],
            [((["Parent1"], some "attr2"), ["connectionPaths"])]⟩)] ∧
    ((applyOps storeF deletePropOpsF).spec 6 ["Parent1"]).map (fun s =>
      (s.props.find? (fun pr => pr.name == "attr2")).map PropSpec.targets) =
      some (some (some [])) ∧
    batchNotices storeF [(0, stageF)] movePropOpsF =
      [(0, ⟨[((["Parent1"], some "attr3"), []),
             ((["Parent2"], some "newName"), [])],
            [((["Parent1"], some "attr2"), ["connectionPaths"])]⟩)] ∧
    ((applyOps storeF movePropOpsF).spec 6 ["Parent1"]).map (fun s =>
      (s.props.find? (fun pr => pr.name == "attr2")).map PropSpec.targets) =
      some (some (some [(["Parent2"], some "newName")])) :=
  ⟨by decide, by decide, by decide, by decide, by decide, by decide⟩

/-! Frame lemmas: an edit through an editor can only touch layers the
editor's stages reach, so any other layer is bit-for-bit preserved. -/

theorem lookupBy_updateAssoc_ne {β : Type} (k l : LayerId) (f : β → β)
    (h : l ≠ k) (xs : List (LayerId × β)) :
    lookupBy l (updateAssoc k f xs) = lookupBy l xs := by
  induction xs with
  | nil => rfl
  | cons kv rest ih =>
    obtain ⟨k0, v⟩ := kv
    show lookupBy l (if k0 = k then (k0, f v) :: updateAssoc k f rest
      else (k0, v) :: updateAssoc k f rest) = _
    by_cases hk : k0 = k
    · rw [if_pos hk]
      have hl : ¬l = k0 := fun hh => h (hh.trans hk)
      show (if l = k0 then some (f v) else lookupBy l (updateAssoc k f rest)) =
        (if l = k0 then some v else lookupBy l rest)
      rw [if_neg hl, if_neg hl]
      exact ih
    · rw [if_neg hk]
      show (if l = k0 then some v else lookupBy l (updateAssoc k f rest)) =
        (if l = k0 then some v else lookupBy l rest)
      by_cases hl : l = k0
      · rw [if_pos hl, if_pos hl]
      · rw [if_neg hl, if_neg hl]
        exact ih

theorem Store.layer_updateLayer_ne (st : Store) (k : LayerId)
    (f : Layer → Layer) (l : LayerId) (h : l ≠ k) :
    (st.updateLayer k f).layer l = st.layer l :=
  lookupBy_updateAssoc_ne k l f h st.layers

theorem Store.layer_updateSpec_ne (st : Store) (k : LayerId) (p : Path)
    (f : PrimSpec → PrimSpec) (l : LayerId) (h : l ≠ k) :
    (st.updateSpec k p f).layer l = st.layer l :=
  Store.layer_updateLayer_ne st k _ l h

theorem applyOp_layer_frame (st : Store) (op : EditOp) (l : LayerId)
    (h : op.onLayer ≠ l) : (applyOp st op).layer l = st.layer l := by
  have h' : l ≠ op.onLayer := Ne.symm h
  cases op with
  | moveSpec l0 o n => exact Store.layer_updateLayer_ne _ _ _ _ h'
  | deleteSpec l0 p => exact Store.layer_updateLayer_ne _ _ _ _ h'
  | setArcs l0 p ip arcs => exact Store.layer_updateSpec_ne _ _ _ _ _ h'
  | setTypeName l0 p t => exact Store.layer_updateSpec_ne _ _ _ _ _ h'
  | deleteProp l0 p n => exact Store.layer_updateSpec_ne _ _ _ _ _ h'
  | setTargets l0 p n ts => exact Store.layer_updateSpec_ne _ _ _ _ _ h'
  | moveProp l0 sp sn dp dn =>
    have h0 : l ≠ l0 := h'
    simp only [applyOp]
    split
    · exact Store.layer_updateSpec_ne _ _ _ _ _ h0
    · exact (Store.layer_updateSpec_ne _ _ _ _ _ h0).trans
        (Store.layer_updateSpec_ne _ _ _ _ _ h0)

theorem applyOps_layer_frame (ops : List EditOp) (l : LayerId) :
    ∀ st : Store, (∀ op ∈ ops, op.onLayer ≠ l) →
      (applyOps st ops).layer l = st.layer l := by
  induction ops with
  | nil => intro st _; rfl
  | cons op rest ih =>
    intro st h
    have h1 := h op (List.mem_cons_self op rest)
    have h2 : ∀ o ∈ rest, o.onLayer ≠ l :=
      fun o ho => h o (List.mem_cons_of_mem _ ho)
    calc (applyOps st (op :: rest)).layer l
        = (applyOps (applyOp st op) rest).layer l := rfl
      _ = (applyOp st op).layer l := ih _ h2
      _ = st.layer l := applyOp_layer_frame _ _ _ h1

theorem mem_usedLayersFuel_of_mem (st : Store) :
    ∀ (n : Nat) (ls : List LayerId) (x : LayerId), x ∈ ls →
      x ∈ usedLayersFuel st n ls := by
  intro n
  induction n with
  | zero => intro ls x h; exact h
  | succ n ih =>
    intro ls x h
    exact ih _ _ (by
      unfold usedLayersStep
      rw [mem_dedupFirst]
      exact List.mem_append_left _ h)

theorem mem_editorLayers_of_stack (st : Store) (e : Editor) (l : LayerId)
    (h : l ∈ editorStackLayers st e) : l ∈ editorLayers st e := by
  unfold editorStackLayers at h
  rw [mem_dedupFirst] at h
  rcases List.mem_flatMap.1 h with ⟨s, hs, hl⟩
  unfold editorLayers
  rw [mem_dedupFirst]
  exact List.mem_flatMap.2
    ⟨s, hs, mem_usedLayersFuel_of_mem st F _ l hl⟩

theorem fieldFixOp_onLayer {st : Store} {e : Editor} {editedLs : List LayerId}
    {old : Path} {newOpt : Option Path} {l : LayerId} {p : Path}
    {s : PrimSpec} {ip : Bool} {op : EditOp}
    (h : fieldFixOp st e editedLs old newOpt l p s ip = some op) :
    op.onLayer = l := by
  rcases Option.map_eq_some'.1 h with ⟨a, _, rfl⟩
  rfl

theorem ancestralFixOp_onLayer {st : Store} {e : Editor}
    {editedLs : List LayerId} {old : Path} {newOpt : Option Path}
    {l : LayerId} {p : Path} {ip : Bool} {a : Arc} {op : EditOp}
    (h : ancestralFixOp st e editedLs old newOpt l p ip a = some op) :
    op.onLayer = l := by
  rcases Option.map_eq_some'.1 h with ⟨t, _, rfl⟩
  cases t.2 <;> rfl

theorem pruneFixOp_onLayer {st : Store} {l : LayerId} {p : Path}
    {c : String} {op : EditOp} (h : pruneFixOp st l p c = some op) :
    op.onLayer = l := by
  rcases Option.map_eq_some'.1 h with ⟨q, _, rfl⟩
  rfl

theorem propTargetsFixOp_onLayer {old : Path} {newOpt : Option Path}
    {l : LayerId} {p : Path} {pr : PropSpec} {op : EditOp}
    (h : propTargetsFixOp old newOpt l p pr = some op) : op.onLayer = l := by
  rcases Option.map_eq_some'.1 h with ⟨ts, _, rfl⟩
  rfl

theorem specFixOps_onLayer {st : Store} {e : Editor} {editedLs : List LayerId}
    {old : Path} {newOpt : Option Path} {l : LayerId} {p : Path}
    {s : PrimSpec} {op : EditOp}
    (h : op ∈ specFixOps st e editedLs old newOpt l p s) : op.onLayer = l := by
  unfold specFixOps at h
  simp only [List.mem_append] at h
  rcases h with ((h | (h | h)) | h) | h
  · rw [List.reduceOption_mem_iff] at h
    rcases List.mem_cons.1 h with h | h
    · exact fieldFixOp_onLayer h.symm
    · rcases List.mem_cons.1 h with h | h
      · exact fieldFixOp_onLayer h.symm
      · cases h
  · rcases List.mem_filterMap.1 h with ⟨a, _, ha⟩
    exact ancestralFixOp_onLayer ha
  · rcases List.mem_filterMap.1 h with ⟨a, _, ha⟩
    exact ancestralFixOp_onLayer ha
  · rcases List.mem_filterMap.1 h with ⟨c, _, hc⟩
    split at hc
    · exact pruneFixOp_onLayer hc
    · cases hc
  · rcases List.mem_filterMap.1 h with ⟨pr, _, hpr⟩
    exact propTargetsFixOp_onLayer hpr

theorem editorMoveOps_onLayer (st : Store) (e : Editor) (old : Path)
    (newOpt : Option Path) :
    ∀ op ∈ editorMoveOps st e old newOpt, op.onLayer ∈ editorLayers st e := by
  intro op hop
  unfold editorMoveOps at hop
  rcases List.mem_append.1 hop with hd | hf
  · rcases List.mem_map.1 hd with ⟨l', hl', rfl⟩
    have hl2 : l' ∈ editorStackLayers st e := (List.mem_filter.1 hl').1
    have hl3 := mem_editorLayers_of_stack st e l' hl2
    cases newOpt <;> exact hl3
  · rcases List.mem_flatMap.1 hf with ⟨l', hl', hop2⟩
    cases hL : st.layer l' with
    | none => rw [hL] at hop2; cases hop2
    | some L =>
      rw [hL] at hop2
      rcases List.mem_flatMap.1 hop2 with ⟨q, _, hop3⟩
      rw [specFixOps_onLayer hop3]
      exact hl'

/-- C7: a layer that is neither in the layer stacks of the editor's base
or registered dependent stages nor reachable from them through
reference/payload arcs is completely untouched by `MovePrimAtPath` /
`DeletePrimAtPath`: none of its authored composition-arc fields (or any
other content) is rewritten by the edit, so an unregistered stage's
composed contents can change only through what the edit did inside the
target layers themselves. -/
theorem C7_unregistered_layer_untouched (st : Store) (e : Editor)
    (old : Path) (newOpt : Option Path) (l : LayerId)
    (h : l ∉ editorLayers st e) :
    (applyOps st (editorMoveOps st e old newOpt)).layer l = st.layer l := by
  apply applyOps_layer_frame
  intro op hop hEq
  exact h (hEq ▸ editorMoveOps_onLayer st e old newOpt op hop)

/-- C7 witness: layer 3 of scenario E backs the unregistered stage 3 and
is unreachable from the editor's stages, so the rename of `/Ref` leaves
it untouched. -/
theorem C7_unregistered_layer_untouched_witness :
    (applyOps storeE (editorMoveOps storeE editorE ["Ref"]
      (some ["RenamedRef"]))).layer 3 = storeE.layer 3 :=
  C7_unregistered_layer_untouched storeE editorE ["Ref"]
    (some ["RenamedRef"]) 3 (by decide)

/-! Counting lemma for notice dispatch: `batchNotices` emits at most one
notice per registered listener, exactly one for each affected stage. -/

theorem batchNotices_cons_none (st : Store) (ops : List EditOp)
    (hd : Nat × Stage) (rest : List (Nat × Stage))
    (h : noticeFor st hd.2 (applyBatch st ops).2 = none) :
    batchNotices st (hd :: rest) ops = batchNotices st rest ops := by
  unfold batchNotices
  rw [List.filterMap_cons]
  simp [h]

theorem batchNotices_cons_some (st : Store) (ops : List EditOp)
    (hd : Nat × Stage) (rest : List (Nat × Stage)) (n : Notice)
    (h : noticeFor st hd.2 (applyBatch st ops).2 = some n) :
    batchNotices st (hd :: rest) ops =
      (hd.1, n) :: batchNotices st rest ops := by
  unfold batchNotices
  rw [List.filterMap_cons]
  simp [h]

theorem batchNotices_fst_mem (st : Store) (ops : List EditOp)
    (stages : List (Nat × Stage)) (x : Nat × Notice)
    (h : x ∈ batchNotices st stages ops) : x.1 ∈ stages.map Prod.fst := by
  unfold batchNotices at h
  rcases List.mem_filterMap.1 h with ⟨js, hjs, hfx⟩
  rcases Option.map_eq_some'.1 hfx with ⟨n, _, rfl⟩
  exact List.mem_map_of_mem Prod.fst hjs

theorem notices_count_helper (st : Store) (ops : List EditOp) (i : Nat)
    (s : Stage) : ∀ stages : List (Nat × Stage),
    (stages.map Prod.fst).Nodup → (i, s) ∈ stages →
    (batchNotices st stages ops).countP (fun x => x.1 == i) =
      if (noticeFor st s (applyBatch st ops).2).isSome then 1 else 0 := by
  intro stages
  induction stages with
  | nil => intro _ hm; cases hm
  | cons hd rest ih =>
    intro hnd hm
    rw [List.map_cons, List.nodup_cons] at hnd
    have hzero : i ∉ rest.map Prod.fst →
        (batchNotices st rest ops).countP (fun x => x.1 == i) = 0 := by
      intro hni
      apply List.countP_eq_zero.2
      intro x hx
      have := batchNotices_fst_mem st ops rest x hx
      simp only [beq_iff_eq]
      intro hxe
      exact hni (hxe ▸ this)
    rcases List.mem_cons.1 hm with heq | hmem
    · subst heq
      cases hno : noticeFor st s (applyBatch st ops).2 with
      | none =>
        rw [batchNotices_cons_none st ops (i, s) rest hno]
        rw [hzero hnd.1]
        simp [hno]
      | some n =>
        rw [batchNotices_cons_some st ops (i, s) rest n hno]
        rw [List.countP_cons]
        rw [hzero hnd.1]
        simp [hno]
    · have hine : hd.1 ≠ i := by
        intro hh
        exact hnd.1 (hh ▸ List.mem_map_of_mem Prod.fst hmem)
      have hrest := ih hnd.2 hmem
      cases hno : noticeFor st hd.2 (applyBatch st ops).2 with
      | none =>
        rw [batchNotices_cons_none st ops hd rest hno]
        exact hrest
      | some n =>
        rw [batchNotices_cons_some st ops hd rest n hno]
        rw [List.countP_cons]
        have hb : (((hd.1, n) : Nat × Notice).1 == i) = false := by
          simpa using hine
        rw [hb]
        simpa using hrest

/-- C8: every top-level batch of spec mutations — whether an applied
namespace edit spanning several primitive spec operations or a
change-block grouping several field edits and deletions — dispatches
exactly one consolidated notice per affected stage (and none for
unaffected stages), never one notice per individual field mutation; in
particular the two-operation change block that retypes `/Parent1` and
then deletes it yields a single notice, as does the namespace-editor
move batch. -/
theorem C8_one_notice_per_affected_stage :
    (∀ (st : Store) (stages : List (Nat × Stage)) (ops : List EditOp)
      (i : Nat) (s : Stage),
      (stages.map Prod.fst).Nodup → (i, s) ∈ stages →
      (batchNotices st stages ops).countP (fun x => x.1 == i) =
        if (noticeFor st s (applyBatch st ops).2).isSome then 1 else 0) ∧
    blockOpsF.length = 2 ∧
    batchNotices storeF [(0, stageF)] blockOpsF =
      [(0, ⟨[((["Parent1"], none), ["typeName"])], []⟩)] ∧
    batchNotices storeF [(0, stageF)] movePrimOpsF =
      [(0, ⟨[((["Parent2"], none), []),
             ((["Parent1", "Parent3"], none), [])], []⟩)] :=
  ⟨fun st stages ops i s hnd hm =>
      notices_count_helper st ops i s stages hnd hm,
   by decide, by decide, by decide⟩

/-- C8 witness: the per-stage count instantiated at the change-block
scenario: its single registered stage receives exactly one notice for
the two-operation batch. -/
theorem C8_one_notice_per_affected_stage_witness :
    (batchNotices storeF [(0, stageF)] blockOpsF).countP
      (fun x => x.1 == 0) =
      if (noticeFor storeF stageF (applyBatch storeF blockOpsF).2).isSome
      then 1 else 0 :=
  C8_one_notice_per_affected_stage.1 storeF [(0, stageF)] blockOpsF 0 stageF
    (by decide) (by decide)

end UsdModel
